import Mathlib

/-!
Verification development for the per-shard online schema migration scheduler
of this repository, together with the `vttest` process helpers.

The scheduler implementation itself is not among the provided source files:
only its end-to-end test (the `scheduler` package test) is. The scheduler's
data model, admission/conflict algorithm, command handlers, cutover gate and
resubmission contract are therefore modelled from the specification text
(sections 3 to 7 of the design document) and the claims about them are
settled against that model. The `vttest` definitions at the end of the file
are embedded directly from `go/vt/vttest/vtprocess.go`.
-/

/-- Modelled from the spec: the `status` field of a migration record, one of
Queued, Ready, Running, Complete, Failed, Cancelled (spec section 3). The
scheduler source is missing from the provided files; only its test exists. -/
inductive MigrationStatus where
  | queued
  | ready
  | running
  | complete
  | failed
  | cancelled
deriving DecidableEq, Repr

/-- Modelled from the spec: a MigrationRecord (spec section 3). Timestamps
are abstract tick counters. `completeRequested` records that a Complete
command was accepted; `cancelRequested` is the asynchronous cancellation
intent flag of spec section 5. -/
structure MigrationRecord where
  uuid : Nat
  migrationContext : String
  targetTables : List String
  allowConcurrent : Bool
  postponeLaunch : Bool
  postponeCompletion : Bool
  status : MigrationStatus
  readyToComplete : Bool
  completeRequested : Bool
  cancelRequested : Bool
  retries : Nat
  requestedAt : Nat
  readyAt : Option Nat
  startedAt : Option Nat
  completedAt : Option Nat
deriving DecidableEq, Repr

/-- Modelled from the spec: two sets of table names (as lists) overlap when
they share an element (spec glossary, Conflict). -/
def tablesOverlap (a b : List String) : Bool :=
  a.any fun t => b.any fun u => t == u

/-- Modelled from the spec: a record holds its target tables for conflict
purposes exactly while it is in Ready or Running (spec section 4.2). -/
def isHolder (r : MigrationRecord) : Bool :=
  r.status == .ready || r.status == .running

/-- Modelled from the spec: the Conflict Tracker check `HasConflict` over a
collection of other records (spec section 4.2): true when some Ready/Running
record holds a table overlapping `tables`. -/
def hasConflictWith (others : List MigrationRecord) (tables : List String) : Bool :=
  others.any fun h => isHolder h && tablesOverlap tables h.targetTables

/-- Modelled from the spec: promotion of a record to Ready, stamping
`ready_at` (spec section 4.3 step 1). -/
def promoteReadyRec (clock : Nat) (r : MigrationRecord) : MigrationRecord :=
  { r with status := .ready, readyAt := some clock }

/-- Modelled from the spec: promotion of a record to Running, stamping
`started_at` (spec section 4.3 step 2). -/
def promoteRunRec (clock : Nat) (r : MigrationRecord) : MigrationRecord :=
  { r with status := .running, startedAt := some clock }

/-- Modelled from the spec: a Queued record may advance to Ready when it is
not gated by `postpone_launch` and has no table conflict with the current
Ready/Running holders (spec section 4.3 step 1). -/
def canPromoteQueued (others : List MigrationRecord) (r : MigrationRecord) : Bool :=
  r.status == .queued && !r.postponeLaunch && !hasConflictWith others r.targetTables

/-- Modelled from the spec: the Queued to Ready pass of the Admission
Controller. Records are evaluated in store order (submission order); each
candidate is checked against the holders among all other records, including
records already promoted earlier in the same tick, so that the table-overlap
invariant of spec section 3 is maintained. `done` is the already processed
prefix, `todo` the remainder; the result is the processed `todo`. -/
def promoteQueuedGo (clock : Nat) (done todo : List MigrationRecord) : List MigrationRecord :=
  match todo with
  | [] => []
  | r :: rest =>
    if canPromoteQueued (done ++ rest) r then
      promoteReadyRec clock r :: promoteQueuedGo clock (done ++ [promoteReadyRec clock r]) rest
    else
      r :: promoteQueuedGo clock (done ++ [r]) rest

/-- Modelled from the spec: step 1 of the per-tick admission pass
(spec section 4.3). -/
def promoteQueuedStep (clock : Nat) (store : List MigrationRecord) : List MigrationRecord :=
  promoteQueuedGo clock [] store

/-- Modelled from the spec: a Ready record with `allow_concurrent` is
promoted to Running immediately (spec section 4.3 step 2). -/
def concRunRec (clock : Nat) (r : MigrationRecord) : MigrationRecord :=
  if r.status == .ready && r.allowConcurrent then promoteRunRec clock r else r

/-- Modelled from the spec: the concurrent half of step 2 of the admission
pass (spec section 4.3). -/
def promoteConcurrentStep (clock : Nat) (store : List MigrationRecord) : List MigrationRecord :=
  store.map (concRunRec clock)

/-- Modelled from the spec: a Running record with `allow_concurrent = false`
(spec glossary, Exclusive slot). -/
def exclusiveRunning (r : MigrationRecord) : Bool :=
  r.status == .running && !r.allowConcurrent

/-- Modelled from the spec: whether some Running record currently holds the
exclusive slot (spec section 4.3 step 2). -/
def exclusiveSlotBusy (store : List MigrationRecord) : Bool :=
  store.any exclusiveRunning

/-- Modelled from the spec: a Ready record competing for the exclusive slot
(spec section 4.3, tie-break rule). -/
def exclusiveCandidate (r : MigrationRecord) : Bool :=
  r.status == .ready && !r.allowConcurrent

/-- Modelled from the spec: the smallest `requested_at` among a list of
records; used for the FIFO-by-submission tie-break (spec section 4.3). -/
def minRequestedAt : List MigrationRecord → Option Nat
  | [] => none
  | r :: rest =>
    match minRequestedAt rest with
    | none => some r.requestedAt
    | some m => some (min r.requestedAt m)

/-- Modelled from the spec: rewrite the first record satisfying `p` using
`f`, leaving every other record untouched (at most one promotion into the
exclusive slot per tick, spec section 4.3 step 2). -/
def replaceFirst (p : MigrationRecord → Bool) (f : MigrationRecord → MigrationRecord) :
    List MigrationRecord → List MigrationRecord
  | [] => []
  | r :: rest => if p r then f r :: rest else r :: replaceFirst p f rest

/-- Modelled from the spec: the exclusive half of step 2 of the admission
pass: when the exclusive slot is free, promote the single non-concurrent
Ready record with the earliest `requested_at` (spec section 4.3). -/
def promoteExclusiveStep (clock : Nat) (store : List MigrationRecord) : List MigrationRecord :=
  if exclusiveSlotBusy store then store
  else
    match minRequestedAt (store.filter exclusiveCandidate) with
    | none => store
    | some m =>
      replaceFirst (fun r => exclusiveCandidate r && r.requestedAt == m)
        (promoteRunRec clock) store

/-- Modelled from the spec: the Throttle Oracle answer for a record, either
a global signal or a per-migration one (spec sections 2 and 4.5). -/
def isThrottled (globalThrottle : Bool) (throttledUuids : List Nat) (r : MigrationRecord) : Bool :=
  globalThrottle || throttledUuids.contains r.uuid

/-- Modelled from the spec: the cutover gate for one record (spec section
4.5): a Running record becomes Complete exactly when `ready_to_complete`
holds, completion is not postponed or a Complete command was received, and
the Throttle Oracle reports not throttled. -/
def cutoverRec (globalThrottle : Bool) (throttledUuids : List Nat) (clock : Nat)
    (r : MigrationRecord) : MigrationRecord :=
  if r.status == .running && r.readyToComplete &&
      (!r.postponeCompletion || r.completeRequested) &&
      !isThrottled globalThrottle throttledUuids r then
    { r with status := .complete, completedAt := some clock }
  else r

/-- Modelled from the spec: the cutover pass of a tick (spec section 4.5). -/
def cutoverStep (globalThrottle : Bool) (throttledUuids : List Nat) (clock : Nat)
    (store : List MigrationRecord) : List MigrationRecord :=
  store.map (cutoverRec globalThrottle throttledUuids clock)

/-- Modelled from the spec: one reconciliation tick of the Scheduler Loop
(spec sections 2 and 4.3 to 4.5): Queued to Ready admission, Ready to
Running promotion (concurrent records freely, the exclusive slot FIFO and at
most once per tick), then the throttle-gated cutover. -/
def tickStep (globalThrottle : Bool) (throttledUuids : List Nat) (clock : Nat)
    (store : List MigrationRecord) : List MigrationRecord :=
  cutoverStep globalThrottle throttledUuids clock
    (promoteExclusiveStep clock (promoteConcurrentStep clock (promoteQueuedStep clock store)))

/-- Modelled from the spec: point lookup in the Migration Store by UUID
(spec section 4.1). -/
def findRec (u : Nat) (store : List MigrationRecord) : Option MigrationRecord :=
  store.find? fun r => r.uuid == u

/-- Modelled from the spec: the migration descriptor arriving at `Submit`
(spec sections 3 and 6). -/
structure SubmitReq where
  uuid : Nat
  migrationContext : String
  targetTables : List String
  allowConcurrent : Bool
  postponeLaunch : Bool
  postponeCompletion : Bool
deriving DecidableEq, Repr

/-- Modelled from the spec: the fresh Queued record created on first
submission (spec section 3, lifecycle). -/
def newRecord (clock : Nat) (q : SubmitReq) : MigrationRecord :=
  { uuid := q.uuid
    migrationContext := q.migrationContext
    targetTables := q.targetTables
    allowConcurrent := q.allowConcurrent
    postponeLaunch := q.postponeLaunch
    postponeCompletion := q.postponeCompletion
    status := .queued
    readyToComplete := false
    completeRequested := false
    cancelRequested := false
    retries := 0
    requestedAt := clock
    readyAt := none
    startedAt := none
    completedAt := none }

/-- Modelled from the spec: reopening of a terminal Failed/Cancelled record
on idempotent resubmission: reset to Queued, increment `retries`, clear
`ready_to_complete`, preserve the UUID (spec section 4.6). -/
def reopenRec (r : MigrationRecord) : MigrationRecord :=
  { r with
    status := .queued
    retries := r.retries + 1
    readyToComplete := false
    completeRequested := false
    cancelRequested := false }

/-- Modelled from the spec: the idempotent resubmission contract of `Submit`
(spec section 4.6): no existing record inserts a fresh Queued one; an
existing Failed/Cancelled record with a matching `migration_context` is
reopened in place; every other case (non-terminal record, Complete record,
context mismatch) leaves the store unchanged. -/
def submitStep (clock : Nat) (q : SubmitReq) (store : List MigrationRecord) :
    List MigrationRecord :=
  match findRec q.uuid store with
  | none => store ++ [newRecord clock q]
  | some r =>
    if (r.status == .failed || r.status == .cancelled) &&
        r.migrationContext == q.migrationContext then
      store.map fun x => if x.uuid == q.uuid then reopenRec x else x
    else store

/-- Modelled from the spec: shard-scope matching for the Launch command: an
empty scope list matches every shard, otherwise the local shard identifier
must be listed (spec section 4.4). -/
def shardInScope (shard : String) (scope : List String) : Bool :=
  scope.isEmpty || scope.contains shard

/-- Modelled from the spec: the per-record effect of Launch: it clears
`postpone_launch` only on the record with the given UUID when that record is
Queued with `postpone_launch` set (spec section 4.4). -/
def launchRec (u : Nat) (r : MigrationRecord) : MigrationRecord :=
  if r.uuid == u && r.status == .queued && r.postponeLaunch then
    { r with postponeLaunch := false }
  else r

/-- Modelled from the spec: the Launch command handler: a silent no-op when
the executing shard is out of scope (spec section 4.4). -/
def launchStep (shard : String) (u : Nat) (scope : List String)
    (store : List MigrationRecord) : List MigrationRecord :=
  if shardInScope shard scope then store.map (launchRec u) else store

/-- Modelled from the spec: the per-record effect of Complete: it marks a
Running record so that cutover proceeds without further confirmation; a
no-op on any other record (spec section 4.4). -/
def completeCmdRec (u : Nat) (r : MigrationRecord) : MigrationRecord :=
  if r.uuid == u && r.status == .running then { r with completeRequested := true } else r

/-- Modelled from the spec: the Complete command handler (spec section 4.4). -/
def completeCmdStep (u : Nat) (store : List MigrationRecord) : List MigrationRecord :=
  store.map (completeCmdRec u)

/-- Modelled from the spec: the per-record effect of Cancel: from Queued or
Ready the record transitions directly to Cancelled; from Running only the
asynchronous abort intent is set; a no-op on terminal records
(spec section 4.4). -/
def cancelRec (clock : Nat) (u : Nat) (r : MigrationRecord) : MigrationRecord :=
  if r.uuid == u then
    match r.status with
    | .queued => { r with status := .cancelled, completedAt := some clock }
    | .ready => { r with status := .cancelled, completedAt := some clock }
    | .running => { r with cancelRequested := true }
    | _ => r
  else r

/-- Modelled from the spec: the Cancel command handler (spec section 4.4). -/
def cancelStep (clock : Nat) (u : Nat) (store : List MigrationRecord) : List MigrationRecord :=
  store.map (cancelRec clock u)

/-- Modelled from the spec: the Executor Adapter reporting that a Running
migration could be cut over (`ready_to_complete`, spec sections 3 and 6). -/
def execReadyRec (u : Nat) (r : MigrationRecord) : MigrationRecord :=
  if r.uuid == u && r.status == .running then { r with readyToComplete := true } else r

/-- Modelled from the spec: the Executor readiness report applied to the
store (spec section 6). -/
def execReadyStep (u : Nat) (store : List MigrationRecord) : List MigrationRecord :=
  store.map (execReadyRec u)

/-- Modelled from the spec: the Executor Adapter acknowledging an abort of a
Running record whose cancellation was requested: it settles as Cancelled on
a clean abort and as Failed otherwise (spec section 4.4). -/
def execAbortedRec (clock : Nat) (u : Nat) (clean : Bool) (r : MigrationRecord) :
    MigrationRecord :=
  if r.uuid == u && r.status == .running && r.cancelRequested then
    { r with status := if clean then .cancelled else .failed, completedAt := some clock }
  else r

/-- Modelled from the spec: the Executor abort acknowledgment applied to the
store (spec section 4.4). -/
def execAbortedStep (clock : Nat) (u : Nat) (clean : Bool) (store : List MigrationRecord) :
    List MigrationRecord :=
  store.map (execAbortedRec clock u clean)

/-- Modelled from the spec: the observable events driving one shard's
scheduler: command-surface calls (Submit including reverts, Launch,
Complete, Cancel, spec section 6), Executor Adapter reports, and the
reconciliation tick with the Throttle Oracle's answer. -/
inductive SchedEvent where
  | submit (q : SubmitReq)
  | submitRevert (u : Nat) (ctx : String) (orig : Nat)
      (allowConcurrent postponeLaunch postponeCompletion : Bool)
  | launch (u : Nat) (scope : List String)
  | completeCmd (u : Nat)
  | cancel (u : Nat)
  | execReady (u : Nat)
  | execAborted (u : Nat) (clean : Bool)
  | tick (globalThrottle : Bool) (throttledUuids : List Nat)
deriving DecidableEq, Repr

/-- Modelled from the spec: the per-shard scheduler state, the durable store
plus an abstract clock counting processed events. -/
structure SchedState where
  store : List MigrationRecord
  clock : Nat
deriving DecidableEq, Repr

/-- Modelled from the spec: the effect of one event on a shard's state.
A revert submission (spec section 4.7) is a Submit whose target tables are
inherited from the record it reverts; it then participates in admission,
conflict detection and the exclusive slot exactly like a forward
migration. -/
def applyEvent (shard : String) (s : SchedState) (e : SchedEvent) : SchedState :=
  match e with
  | .submit q => { store := submitStep s.clock q s.store, clock := s.clock + 1 }
  | .submitRevert u ctx orig ac pl pc =>
    match findRec orig s.store with
    | none => { s with clock := s.clock + 1 }
    | some o =>
      { store := submitStep s.clock
          { uuid := u, migrationContext := ctx, targetTables := o.targetTables
            allowConcurrent := ac, postponeLaunch := pl, postponeCompletion := pc } s.store
        clock := s.clock + 1 }
  | .launch u scope => { store := launchStep shard u scope s.store, clock := s.clock + 1 }
  | .completeCmd u => { store := completeCmdStep u s.store, clock := s.clock + 1 }
  | .cancel u => { store := cancelStep s.clock u s.store, clock := s.clock + 1 }
  | .execReady u => { store := execReadyStep u s.store, clock := s.clock + 1 }
  | .execAborted u clean =>
    { store := execAbortedStep s.clock u clean s.store, clock := s.clock + 1 }
  | .tick g thr => { store := tickStep g thr s.clock s.store, clock := s.clock + 1 }

/-- Modelled from the spec: the initial state of a shard's scheduler, an
empty store. -/
def initState : SchedState :=
  { store := [], clock := 0 }

/-- Modelled from the spec: running a shard's scheduler over a sequence of
events from the empty store. -/
def runSched (shard : String) (events : List SchedEvent) : SchedState :=
  events.foldl (applyEvent shard) initState

/-- Two records may not both hold overlapping tables: the table-overlap
invariant relation of spec section 3. -/
def nonConflicting (a b : MigrationRecord) : Prop :=
  isHolder a = true → isHolder b = true →
    tablesOverlap a.targetTables b.targetTables = false

/-- A store is conflict free when no two records with overlapping target
tables are both in Ready or Running (spec section 3, invariants). -/
def conflictFree (store : List MigrationRecord) : Prop :=
  store.Pairwise nonConflicting

/-- Number of Running records holding the exclusive slot (spec section 3:
at most one Running record per shard may have `allow_concurrent = false`). -/
def exclusiveCount (store : List MigrationRecord) : Nat :=
  store.countP exclusiveRunning

/-- A store assigns distinct UUIDs to its records (spec section 3: the UUID
is a primary key). -/
def uuidsNodup (store : List MigrationRecord) : Prop :=
  (store.map MigrationRecord.uuid).Nodup

/-- Status of the record with the given UUID, if any. -/
def statusOf (u : Nat) (store : List MigrationRecord) : Option MigrationStatus :=
  (findRec u store).map MigrationRecord.status

/-- Observable used by the exclusive-ordering test: record `u2` started at
or after the completion of record `u1` (both present with the relevant
timestamps). -/
def startedAfterCompleted (store : List MigrationRecord) (u1 u2 : Nat) : Bool :=
  match findRec u1 store, findRec u2 store with
  | some a, some b =>
    match a.completedAt, b.startedAt with
    | some c, some s => decide (c ≤ s)
    | _, _ => false
  | _, _ => false

/-- Observable: both records completed and the completion timestamp of `u1`
is at most that of `u2`. -/
def completedBefore (store : List MigrationRecord) (u1 u2 : Nat) : Bool :=
  match findRec u1 store, findRec u2 store with
  | some a, some b =>
    match a.completedAt, b.completedAt with
    | some c1, some c2 => decide (c1 ≤ c2)
    | _, _ => false
  | _, _ => false

/-- Launch-flag observable: the `postpone_launch` flag of the record with the
given UUID. -/
def postponeLaunchOf (u : Nat) (store : List MigrationRecord) : Option Bool :=
  (findRec u store).map MigrationRecord.postponeLaunch

/-- Retries observable: the `retries` counter of the record with the given
UUID. -/
def retriesOf (u : Nat) (store : List MigrationRecord) : Option Nat :=
  (findRec u store).map MigrationRecord.retries

/-- Submission request used by the concrete scenario traces. -/
def mkReq (u : Nat) (tables : List String) (ac pl pc : Bool) : SubmitReq :=
  { uuid := u, migrationContext := "ctx", targetTables := tables,
    allowConcurrent := ac, postponeLaunch := pl, postponeCompletion := pc }

/-- Trace mirroring the reference test "concurrent REVERT vs DROP": a
non-concurrent migration on table t1 runs postponed; a revert-style
submission inheriting t1 is then submitted with `allow_concurrent`. -/
def evC1a : List SchedEvent :=
  [ .submit (mkReq 1 ["t1"] false false true)
  , .tick false []
  , .submitRevert 2 "ctx" 1 true false false
  , .tick false [] ]

/-- Continuation of `evC1a`: the holder completes, after which the blocked
revert is admitted and completes. -/
def evC1b : List SchedEvent :=
  evC1a ++ [ .execReady 1, .completeCmd 1, .tick false [], .tick false []
           , .execReady 2, .tick false [] ]

/-- Trace mirroring the reference test "conflicting migration does not block
other queued migrations": holder 1 Running on t1, waiter 2 on t1 blocked,
waiter 3 on t3 submitted after 2 completes anyway. -/
def evC2 : List SchedEvent :=
  [ .submit (mkReq 1 ["t1"] false false true)
  , .tick false []
  , .submit (mkReq 2 ["t1"] true false false)
  , .submit (mkReq 3 ["t3"] true false false)
  , .tick false []
  , .execReady 3
  , .tick false [] ]

/-- Trace mirroring the reference test for sequential times of two
non-concurrent migrations on different tables. -/
def evC3 : List SchedEvent :=
  [ .submit (mkReq 1 ["t1"] false false true)
  , .submit (mkReq 2 ["t2"] false false true)
  , .tick false []
  , .execReady 1, .completeCmd 1
  , .tick false []
  , .tick false []
  , .execReady 2, .completeCmd 2
  , .tick false [] ]

/-- Trace mirroring the reference retry test: cancel while Running (abort
acknowledged cleanly as Cancelled), then resubmission with the same
`(uuid, migration_context)` completes with `retries` equal to one. -/
def evC4 : List SchedEvent :=
  [ .submit (mkReq 7 ["t1"] false false true)
  , .tick false []
  , .cancel 7
  , .execAborted 7 true
  , .submit (mkReq 7 ["t1"] false false true)
  , .tick false []
  , .execReady 7, .completeCmd 7
  , .tick false [] ]

/-- Throttled trace: an `allow_concurrent`, `postpone_completion` migration
is Running while globally throttled; Complete is issued but it must stay
Running. -/
def evC5a : List SchedEvent :=
  [ .submit (mkReq 1 ["t1"] true false true)
  , .tick true []
  , .execReady 1, .completeCmd 1
  , .tick true []
  , .tick true [] ]

/-- Continuation of `evC5a`: one unthrottled tick lets the record cut over. -/
def evC5b : List SchedEvent := evC5a ++ [ .tick false [] ]

/-- Two `allow_concurrent` migrations on disjoint tables, both Running in
the same tick. -/
def evC6base : List SchedEvent :=
  [ .submit (mkReq 1 ["t1"] true false true)
  , .submit (mkReq 2 ["t2"] true false true)
  , .tick false []
  , .execReady 1, .execReady 2 ]

/-- Completion order one: record 2 completes before record 1. -/
def evC6a : List SchedEvent :=
  evC6base ++ [ .completeCmd 2, .tick false [], .completeCmd 1, .tick false [] ]

/-- Completion order two: record 1 completes before record 2. -/
def evC6b : List SchedEvent :=
  evC6base ++ [ .completeCmd 1, .tick false [], .completeCmd 2, .tick false [] ]

/-- Launch-gating trace on shard "1": a `postpone_launch` migration stays
Queued across ticks, a Launch with a wrong UUID and a Launch with shard
scope x,y are silent no-ops. -/
def evC7a : List SchedEvent :=
  [ .submit (mkReq 5 ["t1"] false true false)
  , .tick false []
  , .launch 9 []
  , .launch 5 ["x", "y"]
  , .tick false [] ]

/-- Continuation of `evC7a`: a Launch whose scope contains shard "1" clears
the flag and the migration proceeds to Complete. -/
def evC7b : List SchedEvent :=
  evC7a ++ [ .launch 5 ["x", "1"], .tick false [], .execReady 5, .tick false [] ]

/-- Cancel-from-blocked trace: record 2 is Ready but blocked on the
exclusive slot held by Running record 1; Cancel moves it to Cancelled. -/
def evC8 : List SchedEvent :=
  [ .submit (mkReq 1 ["t1"] false false true)
  , .submit (mkReq 2 ["t2"] false false true)
  , .tick false []
  , .cancel 2 ]

/-- Concrete Running holder on table t1 (witness input). -/
def c2Holder : MigrationRecord :=
  { uuid := 1, migrationContext := "ctx", targetTables := ["t1"], allowConcurrent := false,
    postponeLaunch := false, postponeCompletion := true, status := .running,
    readyToComplete := false, completeRequested := false, cancelRequested := false,
    retries := 0, requestedAt := 0, readyAt := some 1, startedAt := some 1, completedAt := none }

/-- Concrete Queued waiter on table t1, blocked by `c2Holder` (witness
input). -/
def c2Blocked : MigrationRecord :=
  { uuid := 2, migrationContext := "ctx", targetTables := ["t1"], allowConcurrent := true,
    postponeLaunch := false, postponeCompletion := false, status := .queued,
    readyToComplete := false, completeRequested := false, cancelRequested := false,
    retries := 0, requestedAt := 2, readyAt := none, startedAt := none, completedAt := none }

/-- Concrete Queued waiter on the unrelated table t3 (witness input). -/
def c2Waiter : MigrationRecord :=
  { uuid := 3, migrationContext := "ctx", targetTables := ["t3"], allowConcurrent := true,
    postponeLaunch := false, postponeCompletion := false, status := .queued,
    readyToComplete := false, completeRequested := false, cancelRequested := false,
    retries := 0, requestedAt := 3, readyAt := none, startedAt := none, completedAt := none }

/-- Concrete non-concurrent Ready record competing for the exclusive slot
(witness input). -/
def c3Cand : MigrationRecord :=
  { uuid := 4, migrationContext := "ctx", targetTables := ["t4"], allowConcurrent := false,
    postponeLaunch := false, postponeCompletion := false, status := .ready,
    readyToComplete := false, completeRequested := false, cancelRequested := false,
    retries := 0, requestedAt := 4, readyAt := some 5, startedAt := none, completedAt := none }

/-- Concrete Cancelled record awaiting resubmission (witness input). -/
def c4Rec : MigrationRecord :=
  { uuid := 7, migrationContext := "ctx", targetTables := ["t1"], allowConcurrent := false,
    postponeLaunch := false, postponeCompletion := true, status := .cancelled,
    readyToComplete := false, completeRequested := false, cancelRequested := true,
    retries := 0, requestedAt := 0, readyAt := some 1, startedAt := some 1, completedAt := some 2 }

/-- Concrete Running record with postponed completion and no Complete
command yet (witness input). -/
def c5Run : MigrationRecord :=
  { uuid := 1, migrationContext := "ctx", targetTables := ["t1"], allowConcurrent := true,
    postponeLaunch := false, postponeCompletion := true, status := .running,
    readyToComplete := true, completeRequested := false, cancelRequested := false,
    retries := 0, requestedAt := 0, readyAt := some 1, startedAt := some 1, completedAt := none }

/-- Concrete Running record whose Complete command has been received
(witness input). -/
def c5Done : MigrationRecord :=
  { uuid := 1, migrationContext := "ctx", targetTables := ["t1"], allowConcurrent := true,
    postponeLaunch := false, postponeCompletion := true, status := .running,
    readyToComplete := true, completeRequested := true, cancelRequested := false,
    retries := 0, requestedAt := 0, readyAt := some 1, startedAt := some 1, completedAt := none }

/-- Concrete pair of Queued `allow_concurrent` records on disjoint tables
(witness input). -/
def c6r1 : MigrationRecord :=
  { uuid := 1, migrationContext := "ctx", targetTables := ["t1"], allowConcurrent := true,
    postponeLaunch := false, postponeCompletion := true, status := .queued,
    readyToComplete := false, completeRequested := false, cancelRequested := false,
    retries := 0, requestedAt := 0, readyAt := none, startedAt := none, completedAt := none }

/-- Second record of the pair for the C6 witness. -/
def c6r2 : MigrationRecord :=
  { uuid := 2, migrationContext := "ctx", targetTables := ["t2"], allowConcurrent := true,
    postponeLaunch := false, postponeCompletion := true, status := .queued,
    readyToComplete := false, completeRequested := false, cancelRequested := false,
    retries := 0, requestedAt := 1, readyAt := none, startedAt := none, completedAt := none }

/-- Concrete Queued record with `postpone_launch` set (witness input). -/
def c7Rec : MigrationRecord :=
  { uuid := 5, migrationContext := "ctx", targetTables := ["t1"], allowConcurrent := false,
    postponeLaunch := true, postponeCompletion := false, status := .queued,
    readyToComplete := false, completeRequested := false, cancelRequested := false,
    retries := 0, requestedAt := 0, readyAt := none, startedAt := none, completedAt := none }

/-- Concrete Ready record blocked on the exclusive slot (witness input). -/
def c8Rec : MigrationRecord :=
  { uuid := 2, migrationContext := "ctx", targetTables := ["t2"], allowConcurrent := false,
    postponeLaunch := false, postponeCompletion := false, status := .ready,
    readyToComplete := false, completeRequested := false, cancelRequested := false,
    retries := 0, requestedAt := 1, readyAt := some 2, startedAt := none, completedAt := none }

/-- Signals `WaitTerminate` can send to the child process
(`go/vt/vttest/vtprocess.go`). -/
inductive VtSignal where
  | sigterm
  | sigkill
deriving DecidableEq, Repr

/-- Embeds the fields of `VtProcess` (`go/vt/vttest/vtprocess.go`): `proc`
is the command handle (`none` when the process was never started) and
`exit` the exit channel (`none` likewise); both are abstracted to presence
flags since `WaitTerminate` only compares them against nil. -/
structure VtProcess where
  name : String
  directory : String
  logDirectory : String
  binary : String
  extraArgs : List String
  env : List String
  port : Nat
  portGrpc : Nat
  proc : Option Unit
  exit : Option Unit
deriving DecidableEq, Repr

/-- Environment-dependent outcome of the `select` in `WaitTerminate`:
whether the process exits within the 10 second timeout, and the error value
eventually delivered on the exit channel. -/
structure TermOutcome where
  exitsWithin10s : Bool
  exitErr : Option String
deriving DecidableEq, Repr

/-- Embeds `VtProcess.WaitTerminate` (`go/vt/vttest/vtprocess.go`, lines 99
to 117): a nil `proc` or nil `exit` returns nil immediately with no signal
sent and no mutation; otherwise SIGTERM is sent and either the process
exits within 10 seconds, or a Kill is forced; in both live cases `proc` is
cleared and the exit channel error is returned. The result triple is
(returned error, updated handle, signals sent in order). -/
def waitTerminate (vtp : VtProcess) (o : TermOutcome) :
    Option String × VtProcess × List VtSignal :=
  if vtp.proc = none ∨ vtp.exit = none then (none, vtp, [])
  else if o.exitsWithin10s then (o.exitErr, { vtp with proc := none }, [.sigterm])
  else (o.exitErr, { vtp with proc := none }, [.sigterm, .sigkill])

/-- Embeds the `DefaultCharset` constant (`go/vt/vttest/vtprocess.go`). -/
def DefaultCharset : String := "utf8mb4"

/-- Embeds the `QueryServerArgs` default list (`go/vt/vttest/vtprocess.go`). -/
def QueryServerArgs : List String :=
  [ "--queryserver-config-pool-size", "4"
  , "--queryserver-config-query-timeout", "300"
  , "--queryserver-config-schema-reload-time", "60"
  , "--queryserver-config-stream-pool-size", "4"
  , "--queryserver-config-transaction-cap", "4"
  , "--queryserver-config-transaction-timeout", "300"
  , "--queryserver-config-txpool-timeout", "300" ]

/-- Embeds Go's `%t` formatting of a boolean. -/
def goBool (b : Bool) : String := if b then "true" else "false"

/-- Embeds Go's `%v` rendering of a `time.Duration` that is a non-negative
whole number of seconds, with the `h`, `m`, `s` units Go uses. -/
def goDurationSeconds (s : Nat) : String :=
  let h := s / 3600
  let m := s % 3600 / 60
  let sec := s % 60
  (if h > 0 then toString h ++ "h" else "") ++
    (if h > 0 || m > 0 then toString m ++ "m" else "") ++ toString sec ++ "s"

/-- Embeds Go's `%v` formatting of a `time.Duration` in nanoseconds for the
durations this file reasons about. Sub-second or negative durations (never
produced by the claims, which only evaluate the constant `10 * time.Second`
of the source) are simplified to a nanosecond count. -/
def goDuration (d : Int) : String :=
  if 0 ≤ d ∧ d % 1000000000 = 0 then goDurationSeconds (d / 1000000000).toNat
  else toString d ++ "ns"

/-- Embeds the fields of `vttest.Config` read by `VtcomboProcess`
(`go/vt/vttest/vtprocess.go`). `vtgateTabletRefreshInterval` is a Go
`time.Duration` in nanoseconds. `TransactionTimeout`, a float64 in Go, is
modelled by its zero test plus its already-formatted argument string, since
no claim depends on its numeric value. -/
structure VttestConfig where
  charset : String
  foreignKeyMode : String
  plannerVersion : String
  enableOnlineDDL : Bool
  enableDirectDDL : Bool
  enableSystemSettings : Bool
  vtgateTabletRefreshInterval : Int
  schemaDir : String
  transactionMode : String
  transactionTimeoutIsZero : Bool
  transactionTimeoutArg : String
  tabletHostName : String
  initWorkflowManager : Bool
  vschemaDDLAuthorizedUsers : String
  mysqlBindHost : String
  externalTopoImplementation : String
  externalTopoGlobalServerAddress : String
  externalTopoGlobalRoot : String
deriving DecidableEq, Repr

/-- Embeds the values `VtcomboProcess` obtains from its `Environment`,
`MySQLManager` and `servenv` collaborators (`go/vt/vttest/vtprocess.go`):
credentials, socket or address, marshalled topology, extra argument lists
and global server settings. -/
structure VtcomboDeps where
  user : String
  pass : String
  socket : String
  protoTopo : String
  vtcomboArguments : List String
  grpcAuthIsMtls : Bool
  grpcKey : String
  grpcCert : String
  grpcCA : String
  grpcAllowedSubstrings : String
  mysqlServerVersion : String
  mysqlHost : String
  mysqlPort : Nat
  vtcomboMysqlPort : Nat
deriving DecidableEq, Repr

/-- Embeds the `ExtraArgs` list built by `VtcomboProcess`
(`go/vt/vttest/vtprocess.go`, lines 205 to 301), with the appends in the
exact order of the Go code. -/
def vtcomboExtraArgs (d : VtcomboDeps) (args : VttestConfig) : List String :=
  let charset := if args.charset = "" then DefaultCharset else args.charset
  let a : List String :=
    [ "--db_charset", charset
    , "--db_app_user", d.user
    , "--db_app_password", d.pass
    , "--db_dba_user", d.user
    , "--db_dba_password", d.pass
    , "--proto_topo", d.protoTopo
    , "--mycnf_server_id", "1"
    , "--mycnf_socket_file", d.socket
    , "--normalize_queries"
    , "--enable_query_plan_field_caching=false"
    , "--dbddl_plugin", "vttest"
    , "--foreign_key_mode", args.foreignKeyMode
    , "--planner-version", args.plannerVersion
    , "--enable_online_ddl=" ++ goBool args.enableOnlineDDL
    , "--enable_direct_ddl=" ++ goBool args.enableDirectDDL
    , "--enable_system_settings=" ++ goBool args.enableSystemSettings ]
  let a := a ++
    (if args.vtgateTabletRefreshInterval ≤ 0 then
      ["--tablet_refresh_interval=" ++ goDuration (10 * 1000000000)]
    else
      ["--tablet_refresh_interval=" ++ goDuration args.vtgateTabletRefreshInterval])
  let a := a ++ QueryServerArgs
  let a := a ++ d.vtcomboArguments
  let a := a ++ (if args.schemaDir ≠ "" then ["--schema_dir", args.schemaDir] else [])
  let a := a ++
    (if args.transactionMode ≠ "" then ["--transaction_mode", args.transactionMode] else [])
  let a := a ++
    (if args.transactionTimeoutIsZero then []
     else ["--queryserver-config-transaction-timeout", args.transactionTimeoutArg])
  let a := a ++
    (if args.tabletHostName ≠ "" then ["--tablet_hostname", args.tabletHostName] else [])
  let a := a ++
    (if d.grpcAuthIsMtls then
      [ "--grpc_auth_mode", "mtls", "--grpc_key", d.grpcKey, "--grpc_cert", d.grpcCert
      , "--grpc_ca", d.grpcCA, "--grpc_auth_mtls_allowed_substrings", d.grpcAllowedSubstrings ]
     else [])
  let a := a ++ (if args.initWorkflowManager then ["--workflow_manager_init"] else [])
  let a := a ++
    (if args.vschemaDDLAuthorizedUsers ≠ "" then
      ["--vschema_ddl_authorized_users", args.vschemaDDLAuthorizedUsers] else [])
  let a := a ++
    (if d.mysqlServerVersion ≠ "" then ["--mysql_server_version", d.mysqlServerVersion] else [])
  let a := a ++
    (if d.socket ≠ "" then ["--db_socket", d.socket]
     else ["--db_host", d.mysqlHost, "--db_port", toString d.mysqlPort])
  let vtcomboMysqlBindAddress := if args.mysqlBindHost ≠ "" then args.mysqlBindHost else "localhost"
  let a := a ++
    [ "--mysql_auth_server_impl", "none"
    , "--mysql_server_port", toString d.vtcomboMysqlPort
    , "--mysql_server_bind_address", vtcomboMysqlBindAddress ]
  let a := a ++
    (if args.externalTopoImplementation ≠ "" then
      [ "--external_topo_server", "--topo_implementation", args.externalTopoImplementation
      , "--topo_global_server_address", args.externalTopoGlobalServerAddress
      , "--topo_global_root", args.externalTopoGlobalRoot ]
     else [])
  a

/-- Concrete never-started process handle (witness input). -/
def vtpNil : VtProcess :=
  { name := "vtcombo", directory := "/vt", logDirectory := "/vt/logs", binary := "vtcombo",
    extraArgs := [], env := [], port := 15000, portGrpc := 15001, proc := none, exit := none }

/-- Concrete live process handle (witness input). -/
def vtpLive : VtProcess :=
  { name := "vtcombo", directory := "/vt", logDirectory := "/vt/logs", binary := "vtcombo",
    extraArgs := [], env := [], port := 15000, portGrpc := 15001,
    proc := some (), exit := some () }

/-- Concrete collaborator values for the C10 witness. -/
def depsEx : VtcomboDeps :=
  { user := "vt_app", pass := "", socket := "/tmp/mysql.sock", protoTopo := "topo",
    vtcomboArguments := [], grpcAuthIsMtls := false, grpcKey := "", grpcCert := "",
    grpcCA := "", grpcAllowedSubstrings := "", mysqlServerVersion := "",
    mysqlHost := "localhost", mysqlPort := 3306, vtcomboMysqlPort := 33577 }

/-- Concrete configuration with an empty charset and a zero tablet refresh
interval (witness input). -/
def cfgEx : VttestConfig :=
  { charset := "", foreignKeyMode := "allow", plannerVersion := "v3",
    enableOnlineDDL := true, enableDirectDDL := true, enableSystemSettings := true,
    vtgateTabletRefreshInterval := 0, schemaDir := "", transactionMode := "",
    transactionTimeoutIsZero := true, transactionTimeoutArg := "", tabletHostName := "",
    initWorkflowManager := false, vschemaDDLAuthorizedUsers := "", mysqlBindHost := "",
    externalTopoImplementation := "", externalTopoGlobalServerAddress := "",
    externalTopoGlobalRoot := "" }

theorem tablesOverlap_iff (a b : List String) :
    tablesOverlap a b = true ↔ ∃ t, t ∈ a ∧ t ∈ b := by
  simp [tablesOverlap, List.any_eq_true]

theorem tablesOverlap_comm (a b : List String) :
    tablesOverlap a b = tablesOverlap b a := by
  by_cases h : tablesOverlap a b = true
  · obtain ⟨t, ha, hb⟩ := (tablesOverlap_iff a b).mp h
    rw [h, ((tablesOverlap_iff b a).mpr ⟨t, hb, ha⟩).symm]
  · have h' : ¬tablesOverlap b a = true := fun hc => by
      obtain ⟨t, hb, ha⟩ := (tablesOverlap_iff b a).mp hc
      exact h ((tablesOverlap_iff a b).mpr ⟨t, ha, hb⟩)
    rw [Bool.not_eq_true] at h h'
    rw [h, h']

theorem hasConflictWith_false {others : List MigrationRecord} {tables : List String}
    (h : hasConflictWith others tables = false) :
    ∀ x ∈ others, isHolder x = true → tablesOverlap tables x.targetTables = false := by
  intro x hx hhold
  simp only [hasConflictWith, List.any_eq_false] at h
  have := h x hx
  simp [hhold] at this
  exact this

theorem hasConflictWith_false_of {others : List MigrationRecord} {tables : List String}
    (h : ∀ x ∈ others, isHolder x = true → tablesOverlap tables x.targetTables = false) :
    hasConflictWith others tables = false := by
  simp only [hasConflictWith, List.any_eq_false]
  intro x hx
  by_cases hh : isHolder x = true
  · simp [hh, h x hx hh]
  · have hf : isHolder x = false := by revert hh; cases isHolder x <;> simp
    simp [hf]

theorem forall₂_mem_right {α : Type} {S : α → α → Prop} :
    ∀ {l l' : List α}, List.Forall₂ S l l' → ∀ b ∈ l', ∃ a ∈ l, S a b := by
  intro l l' h
  induction h with
  | nil => intro b hb; exact absurd hb (List.not_mem_nil b)
  | cons hs _ ih =>
    intro b hb
    rcases List.mem_cons.mp hb with rfl | hb
    · exact ⟨_, List.mem_cons_self _ _, hs⟩
    · obtain ⟨a, ha, hab⟩ := ih b hb
      exact ⟨a, List.mem_cons_of_mem _ ha, hab⟩

theorem pairwise_of_forall₂ {α : Type} {R S : α → α → Prop}
    (hmono : ∀ a a' b b', S a a' → S b b' → R a b → R a' b') :
    ∀ {l l' : List α}, List.Forall₂ S l l' → l.Pairwise R → l'.Pairwise R := by
  intro l l' h
  induction h with
  | nil => intro _; exact List.Pairwise.nil
  | cons hs hrest ih =>
    intro hp
    rcases List.pairwise_cons.mp hp with ⟨hhead, htail⟩
    refine List.pairwise_cons.mpr ⟨?_, ih htail⟩
    intro b' hb'
    obtain ⟨b, hb, hbb⟩ := forall₂_mem_right hrest b' hb'
    exact hmono _ _ _ _ hs hbb (hhead b hb)

theorem forall₂_map_self {α : Type} (f : α → α) (l : List α) :
    List.Forall₂ (fun a b => b = f a) l (l.map f) := by
  induction l with
  | nil => exact List.Forall₂.nil
  | cons x xs ih => exact List.Forall₂.cons rfl ih

theorem countP_le_of_forall₂ {α : Type} {S : α → α → Prop} (q : α → Bool)
    (h : ∀ a b, S a b → q b = true → q a = true) :
    ∀ {l l' : List α}, List.Forall₂ S l l' → l'.countP q ≤ l.countP q := by
  intro l l' hf
  induction hf with
  | nil => exact Nat.le_refl _
  | @cons a b l₁ l₂ hs htail ih =>
    rw [List.countP_cons, List.countP_cons]
    by_cases hb : q b = true
    · have ha := h a b hs hb
      rw [if_pos hb, if_pos ha]
      omega
    · have hb' : q b = false := by revert hb; cases q b <;> simp
      rw [if_neg (by simp [hb'])]
      split <;> omega

theorem map_id_of_mem {α : Type} {f : α → α} :
    ∀ l : List α, (∀ x ∈ l, f x = x) → l.map f = l := by
  intro l h
  induction l with
  | nil => rfl
  | cons x xs ih =>
    rw [List.map_cons, h x (List.mem_cons_self _ _), ih fun y hy => h y (List.mem_cons_of_mem _ hy)]

theorem replaceFirst_forall₂ (p : MigrationRecord → Bool) (f : MigrationRecord → MigrationRecord) :
    ∀ l, List.Forall₂ (fun a b => b = a ∨ (p a = true ∧ b = f a)) l (replaceFirst p f l) := by
  intro l
  induction l with
  | nil => exact List.Forall₂.nil
  | cons x xs ih =>
    rw [replaceFirst]
    by_cases hp : p x = true
    · rw [if_pos hp]
      refine List.Forall₂.cons (Or.inr ⟨hp, rfl⟩) ?_
      exact (List.forall₂_same).mpr fun a _ => Or.inl rfl
    · rw [if_neg hp]
      exact List.Forall₂.cons (Or.inl rfl) ih

theorem countP_replaceFirst_le (p : MigrationRecord → Bool) (f : MigrationRecord → MigrationRecord)
    (q : MigrationRecord → Bool) :
    ∀ l, (replaceFirst p f l).countP q ≤ l.countP q + 1 := by
  intro l
  induction l with
  | nil => simp [replaceFirst]
  | cons x xs ih =>
    rw [replaceFirst]
    by_cases hp : p x = true
    · rw [if_pos hp, List.countP_cons, List.countP_cons]
      split <;> split <;> omega
    · rw [if_neg hp, List.countP_cons, List.countP_cons]
      split <;> omega

theorem mem_replaceFirst_of_neg (p : MigrationRecord → Bool) (f : MigrationRecord → MigrationRecord) :
    ∀ l x, x ∈ l → p x = false → x ∈ replaceFirst p f l := by
  intro l
  induction l with
  | nil => intro x hx; exact absurd hx (List.not_mem_nil x)
  | cons y ys ih =>
    intro x hx hpx
    rw [replaceFirst]
    rcases List.mem_cons.mp hx with rfl | hx
    · rw [if_neg (by simp [hpx])]
      exact List.mem_cons_self _ _
    · by_cases hpy : p y = true
      · rw [if_pos hpy]; exact List.mem_cons_of_mem _ hx
      · rw [if_neg hpy]; exact List.mem_cons_of_mem _ (ih x hx hpx)

theorem mem_replaceFirst_cases (p : MigrationRecord → Bool) (f : MigrationRecord → MigrationRecord) :
    ∀ l y, y ∈ replaceFirst p f l → y ∈ l ∨ ∃ x ∈ l, p x = true ∧ y = f x := by
  intro l
  induction l with
  | nil => intro y hy; exact absurd hy (by simp [replaceFirst] at hy ⊢)
  | cons x xs ih =>
    intro y hy
    rw [replaceFirst] at hy
    by_cases hp : p x = true
    · rw [if_pos hp] at hy
      rcases List.mem_cons.mp hy with rfl | hy
      · exact Or.inr ⟨x, List.mem_cons_self _ _, hp, rfl⟩
      · exact Or.inl (List.mem_cons_of_mem _ hy)
    · rw [if_neg hp] at hy
      rcases List.mem_cons.mp hy with rfl | hy
      · exact Or.inl (List.mem_cons_self _ _)
      · rcases ih y hy with h | ⟨z, hz, hpz, rfl⟩
        · exact Or.inl (List.mem_cons_of_mem _ h)
        · exact Or.inr ⟨z, List.mem_cons_of_mem _ hz, hpz, rfl⟩

theorem canPromoteQueued_props {others : List MigrationRecord} {r : MigrationRecord}
    (h : canPromoteQueued others r = true) :
    r.status = .queued ∧ r.postponeLaunch = false ∧
      hasConflictWith others r.targetTables = false := by
  simp only [canPromoteQueued, Bool.and_eq_true, beq_iff_eq, Bool.not_eq_true'] at h
  exact ⟨h.1.1, h.1.2, h.2⟩

theorem canPromoteQueued_true_of {others : List MigrationRecord} {r : MigrationRecord}
    (h1 : r.status = .queued) (h2 : r.postponeLaunch = false)
    (h3 : hasConflictWith others r.targetTables = false) :
    canPromoteQueued others r = true := by
  simp [canPromoteQueued, h1, h2, h3]

theorem exclusiveCandidate_holder {r : MigrationRecord} (h : exclusiveCandidate r = true) :
    isHolder r = true := by
  simp only [exclusiveCandidate, Bool.and_eq_true, beq_iff_eq] at h
  simp [isHolder, h.1]

theorem conflictFree_map (f : MigrationRecord → MigrationRecord)
    (hT : ∀ r, (f r).targetTables = r.targetTables)
    (hH : ∀ r, isHolder (f r) = true → isHolder r = true)
    {l : List MigrationRecord} (h : conflictFree l) : conflictFree (l.map f) := by
  refine pairwise_of_forall₂ ?_ (forall₂_map_self f l) h
  rintro a a' b b' rfl rfl hab
  intro h1 h2
  rw [hT, hT]
  exact hab (hH _ h1) (hH _ h2)

theorem promoteQueuedGo_forall₂ (clock : Nat) :
    ∀ (todo done : List MigrationRecord),
      List.Forall₂ (fun a b => b = a ∨ (a.status = .queued ∧ b = promoteReadyRec clock a))
        todo (promoteQueuedGo clock done todo) := by
  intro todo
  induction todo with
  | nil => intro done; exact List.Forall₂.nil
  | cons r rest ih =>
    intro done
    rw [promoteQueuedGo]
    by_cases hc : canPromoteQueued (done ++ rest) r = true
    · rw [if_pos hc]
      exact List.Forall₂.cons (Or.inr ⟨(canPromoteQueued_props hc).1, rfl⟩) (ih _)
    · rw [if_neg hc]
      exact List.Forall₂.cons (Or.inl rfl) (ih _)

theorem conflictFree_promoteQueuedGo (clock : Nat) :
    ∀ (todo done : List MigrationRecord),
      conflictFree (done ++ todo) →
      conflictFree (done ++ promoteQueuedGo clock done todo) := by
  intro todo
  induction todo with
  | nil =>
    intro done h
    rw [promoteQueuedGo]
    simpa using h
  | cons r rest ih =>
    intro done h
    rw [promoteQueuedGo]
    by_cases hc : canPromoteQueued (done ++ rest) r = true
    · rw [if_pos hc]
      obtain ⟨hq, hpl, hnc⟩ := canPromoteQueued_props hc
      rcases List.pairwise_append.mp h with ⟨hd, hcr, hcross⟩
      rcases List.pairwise_cons.mp hcr with ⟨hr_rest, hrest⟩
      have hRleft : ∀ a ∈ done, nonConflicting a (promoteReadyRec clock r) := by
        intro a ha
        intro h1 _
        have hov := hasConflictWith_false hnc a (List.mem_append_left _ ha) h1
        rw [tablesOverlap_comm] at hov
        exact hov
      have hRright : ∀ b ∈ rest, nonConflicting (promoteReadyRec clock r) b := by
        intro b hb
        intro _ h2
        exact hasConflictWith_false hnc b (List.mem_append_right _ hb) h2
      have key : conflictFree ((done ++ [promoteReadyRec clock r]) ++ rest) := by
        refine List.pairwise_append.mpr ⟨List.pairwise_append.mpr ⟨hd, ?_, ?_⟩, hrest, ?_⟩
        · simp
        · intro a ha b hb
          rcases List.mem_singleton.mp hb with rfl
          exact hRleft a ha
        · intro a ha b hb
          rcases List.mem_append.mp ha with ha' | ha'
          · exact hcross a ha' b (List.mem_cons_of_mem _ hb)
          · rcases List.mem_singleton.mp ha' with rfl
            exact hRright b hb
      have h2 := ih (done ++ [promoteReadyRec clock r]) key
      simpa [List.append_assoc] using h2
    · rw [if_neg hc]
      have key : conflictFree ((done ++ [r]) ++ rest) := by simpa [List.append_assoc] using h
      have h2 := ih (done ++ [r]) key
      simpa [List.append_assoc] using h2

theorem conflictFree_promoteQueuedStep (clock : Nat) {store : List MigrationRecord}
    (h : conflictFree store) : conflictFree (promoteQueuedStep clock store) := by
  have h2 := conflictFree_promoteQueuedGo clock store [] (by simpa using h)
  simpa [promoteQueuedStep] using h2

theorem exclusiveCount_promoteQueuedStep_le (clock : Nat) (store : List MigrationRecord) :
    exclusiveCount (promoteQueuedStep clock store) ≤ exclusiveCount store := by
  refine countP_le_of_forall₂ _ ?_ (promoteQueuedGo_forall₂ clock store [])
  rintro a b (rfl | ⟨hq, rfl⟩) hb
  · exact hb
  · exfalso
    simp [exclusiveRunning, promoteReadyRec] at hb

theorem conflictFree_promoteConcurrentStep (clock : Nat) {store : List MigrationRecord}
    (h : conflictFree store) : conflictFree (promoteConcurrentStep clock store) := by
  refine conflictFree_map _ ?_ ?_ h
  · intro r
    unfold concRunRec promoteRunRec
    split <;> rfl
  · intro r h1
    unfold concRunRec at h1
    split at h1
    · rename_i hg
      simp only [Bool.and_eq_true, beq_iff_eq] at hg
      simp [isHolder, hg.1]
    · exact h1

theorem exclusiveCount_promoteConcurrentStep_le (clock : Nat) (store : List MigrationRecord) :
    exclusiveCount (promoteConcurrentStep clock store) ≤ exclusiveCount store := by
  refine countP_le_of_forall₂ _ ?_ (forall₂_map_self (concRunRec clock) store)
  rintro a b rfl hb
  unfold concRunRec at hb
  split at hb
  · rename_i hg
    simp only [Bool.and_eq_true, beq_iff_eq] at hg
    exfalso
    simp [exclusiveRunning, promoteRunRec, hg.2] at hb
  · exact hb

theorem conflictFree_promoteExclusiveStep (clock : Nat) {store : List MigrationRecord}
    (h : conflictFree store) : conflictFree (promoteExclusiveStep clock store) := by
  unfold promoteExclusiveStep
  split
  · exact h
  · split
    · exact h
    · refine pairwise_of_forall₂ ?_ (replaceFirst_forall₂ _ _ store) h
      rintro a a' b b' (rfl | ⟨hpa, rfl⟩) (rfl | ⟨hpb, rfl⟩) hab <;> intro h1 h2
      · exact hab h1 h2
      · simp only [Bool.and_eq_true] at hpb
        exact hab h1 (exclusiveCandidate_holder hpb.1)
      · simp only [Bool.and_eq_true] at hpa
        exact hab (exclusiveCandidate_holder hpa.1) h2
      · simp only [Bool.and_eq_true] at hpa hpb
        exact hab (exclusiveCandidate_holder hpa.1) (exclusiveCandidate_holder hpb.1)

theorem exclusiveCount_promoteExclusiveStep_le (clock : Nat) (store : List MigrationRecord)
    (h : exclusiveCount store ≤ 1) : exclusiveCount (promoteExclusiveStep clock store) ≤ 1 := by
  unfold promoteExclusiveStep
  split
  · exact h
  · rename_i hbusy
    have hzero : exclusiveCount store = 0 := by
      rw [exclusiveCount, List.countP_eq_zero]
      intro a ha hpa
      exact hbusy (List.any_eq_true.mpr ⟨a, ha, hpa⟩)
    split
    · omega
    · rw [exclusiveCount] at hzero
      calc exclusiveCount _ ≤ store.countP exclusiveRunning + 1 :=
            countP_replaceFirst_le _ _ _ store
        _ ≤ 1 := by omega

theorem conflictFree_cutoverStep (g : Bool) (thr : List Nat) (clock : Nat)
    {store : List MigrationRecord} (h : conflictFree store) :
    conflictFree (cutoverStep g thr clock store) := by
  refine conflictFree_map _ ?_ ?_ h
  · intro r
    unfold cutoverRec
    split <;> rfl
  · intro r h1
    unfold cutoverRec at h1
    split at h1
    · simp [isHolder] at h1
    · exact h1

theorem exclusiveCount_cutoverStep_le (g : Bool) (thr : List Nat) (clock : Nat)
    (store : List MigrationRecord) :
    exclusiveCount (cutoverStep g thr clock store) ≤ exclusiveCount store := by
  refine countP_le_of_forall₂ _ ?_ (forall₂_map_self (cutoverRec g thr clock) store)
  rintro a b rfl hb
  unfold cutoverRec at hb
  split at hb
  · simp [exclusiveRunning] at hb
  · exact hb

theorem conflictFree_tickStep (g : Bool) (thr : List Nat) (clock : Nat)
    {store : List MigrationRecord} (h : conflictFree store) :
    conflictFree (tickStep g thr clock store) :=
  conflictFree_cutoverStep g thr clock
    (conflictFree_promoteExclusiveStep clock
      (conflictFree_promoteConcurrentStep clock
        (conflictFree_promoteQueuedStep clock h)))

theorem exclusiveCount_tickStep_le (g : Bool) (thr : List Nat) (clock : Nat)
    (store : List MigrationRecord) (h : exclusiveCount store ≤ 1) :
    exclusiveCount (tickStep g thr clock store) ≤ 1 := by
  have h1 := exclusiveCount_promoteQueuedStep_le clock store
  have h2 := exclusiveCount_promoteConcurrentStep_le clock (promoteQueuedStep clock store)
  have h3 := exclusiveCount_promoteExclusiveStep_le clock
    (promoteConcurrentStep clock (promoteQueuedStep clock store)) (by omega)
  have h4 := exclusiveCount_cutoverStep_le g thr clock
    (promoteExclusiveStep clock (promoteConcurrentStep clock (promoteQueuedStep clock store)))
  unfold tickStep
  omega

theorem conflictFree_submitStep (clock : Nat) (q : SubmitReq) {store : List MigrationRecord}
    (h : conflictFree store) : conflictFree (submitStep clock q store) := by
  unfold submitStep
  split
  · refine List.pairwise_append.mpr ⟨h, by simp, ?_⟩
    intro a ha b hb
    rcases List.mem_singleton.mp hb with rfl
    intro _ hnew
    exfalso
    simp [isHolder, newRecord] at hnew
  · split
    · refine conflictFree_map _ ?_ ?_ h
      · intro r
        split
        · rfl
        · rfl
      · intro r h1
        split at h1
        · simp [isHolder, reopenRec] at h1
        · exact h1
    · exact h

theorem exclusiveCount_submitStep_le (clock : Nat) (q : SubmitReq) (store : List MigrationRecord) :
    exclusiveCount (submitStep clock q store) ≤ exclusiveCount store := by
  unfold submitStep
  split
  · rw [exclusiveCount, exclusiveCount, List.countP_append]
    have hz : List.countP exclusiveRunning [newRecord clock q] = 0 := by
      simp [List.countP_cons, exclusiveRunning, newRecord]
    omega
  · split
    · refine countP_le_of_forall₂ _ ?_ (forall₂_map_self _ store)
      rintro a b rfl hb
      split at hb
      · exfalso
        simp [exclusiveRunning, reopenRec] at hb
      · exact hb
    · exact Nat.le_refl _

theorem conflictFree_launchStep (shard : String) (u : Nat) (scope : List String)
    {store : List MigrationRecord} (h : conflictFree store) :
    conflictFree (launchStep shard u scope store) := by
  unfold launchStep
  split
  · refine conflictFree_map _ ?_ ?_ h
    · intro r
      unfold launchRec
      split <;> rfl
    · intro r h1
      unfold launchRec at h1
      split at h1 <;> exact h1
  · exact h

theorem exclusiveCount_launchStep_le (shard : String) (u : Nat) (scope : List String)
    (store : List MigrationRecord) :
    exclusiveCount (launchStep shard u scope store) ≤ exclusiveCount store := by
  unfold launchStep
  split
  · refine countP_le_of_forall₂ _ ?_ (forall₂_map_self _ store)
    rintro a b rfl hb
    unfold launchRec at hb
    split at hb <;> exact hb
  · exact Nat.le_refl _

theorem conflictFree_completeCmdStep (u : Nat) {store : List MigrationRecord}
    (h : conflictFree store) : conflictFree (completeCmdStep u store) := by
  refine conflictFree_map _ ?_ ?_ h
  · intro r
    unfold completeCmdRec
    split <;> rfl
  · intro r h1
    unfold completeCmdRec at h1
    split at h1 <;> exact h1

theorem exclusiveCount_completeCmdStep_le (u : Nat) (store : List MigrationRecord) :
    exclusiveCount (completeCmdStep u store) ≤ exclusiveCount store := by
  refine countP_le_of_forall₂ _ ?_ (forall₂_map_self _ store)
  rintro a b rfl hb
  unfold completeCmdRec at hb
  split at hb <;> exact hb

theorem conflictFree_execReadyStep (u : Nat) {store : List MigrationRecord}
    (h : conflictFree store) : conflictFree (execReadyStep u store) := by
  refine conflictFree_map _ ?_ ?_ h
  · intro r
    unfold execReadyRec
    split <;> rfl
  · intro r h1
    unfold execReadyRec at h1
    split at h1 <;> exact h1

theorem exclusiveCount_execReadyStep_le (u : Nat) (store : List MigrationRecord) :
    exclusiveCount (execReadyStep u store) ≤ exclusiveCount store := by
  refine countP_le_of_forall₂ _ ?_ (forall₂_map_self _ store)
  rintro a b rfl hb
  unfold execReadyRec at hb
  split at hb <;> exact hb

theorem conflictFree_cancelStep (clock : Nat) (u : Nat) {store : List MigrationRecord}
    (h : conflictFree store) : conflictFree (cancelStep clock u store) := by
  refine conflictFree_map _ ?_ ?_ h
  · intro r
    unfold cancelRec
    split
    · split <;> rfl
    · rfl
  · intro r h1
    unfold cancelRec at h1
    split at h1
    · split at h1
      · simp [isHolder] at h1
      · simp [isHolder] at h1
      · exact h1
      · exact h1
    · exact h1

theorem exclusiveCount_cancelStep_le (clock : Nat) (u : Nat) (store : List MigrationRecord) :
    exclusiveCount (cancelStep clock u store) ≤ exclusiveCount store := by
  refine countP_le_of_forall₂ _ ?_ (forall₂_map_self _ store)
  rintro a b rfl hb
  unfold cancelRec at hb
  split at hb
  · split at hb
    · simp [exclusiveRunning] at hb
    · simp [exclusiveRunning] at hb
    · exact hb
    · exact hb
  · exact hb

theorem conflictFree_execAbortedStep (clock : Nat) (u : Nat) (clean : Bool)
    {store : List MigrationRecord} (h : conflictFree store) :
    conflictFree (execAbortedStep clock u clean store) := by
  refine conflictFree_map _ ?_ ?_ h
  · intro r
    unfold execAbortedRec
    split <;> rfl
  · intro r h1
    unfold execAbortedRec at h1
    split at h1
    · cases clean <;> simp [isHolder] at h1
    · exact h1

theorem exclusiveCount_execAbortedStep_le (clock : Nat) (u : Nat) (clean : Bool)
    (store : List MigrationRecord) :
    exclusiveCount (execAbortedStep clock u clean store) ≤ exclusiveCount store := by
  refine countP_le_of_forall₂ _ ?_ (forall₂_map_self _ store)
  rintro a b rfl hb
  unfold execAbortedRec at hb
  split at hb
  · cases clean <;> simp [exclusiveRunning] at hb
  · exact hb

theorem conflictFree_applyEvent (shard : String) (s : SchedState) (e : SchedEvent)
    (h : conflictFree s.store) : conflictFree (applyEvent shard s e).store := by
  cases e with
  | submit q => exact conflictFree_submitStep _ _ h
  | submitRevert u ctx orig ac pl pc =>
    cases hf : findRec orig s.store with
    | none => simpa [applyEvent, hf] using h
    | some o =>
      have hsub := conflictFree_submitStep s.clock
        { uuid := u, migrationContext := ctx, targetTables := o.targetTables,
          allowConcurrent := ac, postponeLaunch := pl, postponeCompletion := pc } h
      simpa [applyEvent, hf] using hsub
  | launch u scope => exact conflictFree_launchStep _ _ _ h
  | completeCmd u => exact conflictFree_completeCmdStep _ h
  | cancel u => exact conflictFree_cancelStep _ _ h
  | execReady u => exact conflictFree_execReadyStep _ h
  | execAborted u clean => exact conflictFree_execAbortedStep _ _ _ h
  | tick g thr => exact conflictFree_tickStep _ _ _ h

theorem exclusiveCount_applyEvent_le (shard : String) (s : SchedState) (e : SchedEvent)
    (h : exclusiveCount s.store ≤ 1) : exclusiveCount (applyEvent shard s e).store ≤ 1 := by
  cases e with
  | submit q => exact Nat.le_trans (exclusiveCount_submitStep_le _ _ _) h
  | submitRevert u ctx orig ac pl pc =>
    cases hf : findRec orig s.store with
    | none => simpa [applyEvent, hf] using h
    | some o =>
      have hsub := exclusiveCount_submitStep_le s.clock
        { uuid := u, migrationContext := ctx, targetTables := o.targetTables,
          allowConcurrent := ac, postponeLaunch := pl, postponeCompletion := pc } s.store
      have hgoal : exclusiveCount (applyEvent shard s (.submitRevert u ctx orig ac pl pc)).store ≤ 1 := by
        simp only [applyEvent, hf]
        omega
      exact hgoal
  | launch u scope => exact Nat.le_trans (exclusiveCount_launchStep_le _ _ _ _) h
  | completeCmd u => exact Nat.le_trans (exclusiveCount_completeCmdStep_le _ _) h
  | cancel u => exact Nat.le_trans (exclusiveCount_cancelStep_le _ _ _) h
  | execReady u => exact Nat.le_trans (exclusiveCount_execReadyStep_le _ _) h
  | execAborted u clean => exact Nat.le_trans (exclusiveCount_execAbortedStep_le _ _ _ _) h
  | tick g thr => exact exclusiveCount_tickStep_le _ _ _ _ h

theorem invariant_runSched (shard : String) (events : List SchedEvent) :
    conflictFree (runSched shard events).store ∧
      exclusiveCount (runSched shard events).store ≤ 1 := by
  rw [runSched]
  have main : ∀ (s : SchedState), conflictFree s.store → exclusiveCount s.store ≤ 1 →
      conflictFree (events.foldl (applyEvent shard) s).store ∧
        exclusiveCount (events.foldl (applyEvent shard) s).store ≤ 1 := by
    induction events with
    | nil => intro s h1 h2; exact ⟨h1, h2⟩
    | cons e es ih =>
      intro s h1 h2
      rw [List.foldl_cons]
      exact ih _ (conflictFree_applyEvent shard s e h1) (exclusiveCount_applyEvent_le shard s e h2)
  exact main initState (by simp [initState, conflictFree]) (by simp [initState, exclusiveCount])

theorem canPromoteQueued_false_of {others : List MigrationRecord} {x : MigrationRecord}
    (hx : x.status ≠ .queued ∨ x.postponeLaunch = true) :
    canPromoteQueued others x = false := by
  rcases hx with hx | hx
  · have hb : (x.status == MigrationStatus.queued) = false := by
      simp [hx]
    simp [canPromoteQueued, hb]
  · simp [canPromoteQueued, hx]

theorem mem_promoteQueuedGo_of_blocked (clock : Nat) :
    ∀ (todo done : List MigrationRecord) (x : MigrationRecord),
      x ∈ todo → (x.status ≠ .queued ∨ x.postponeLaunch = true) →
      x ∈ promoteQueuedGo clock done todo := by
  intro todo
  induction todo with
  | nil => intro done x hx _; cases hx
  | cons r rest ih =>
    intro done x hx hblock
    rw [promoteQueuedGo]
    rcases List.mem_cons.mp hx with rfl | hx'
    · rw [if_neg (by simp [canPromoteQueued_false_of hblock])]
      exact List.mem_cons_self _ _
    · by_cases hc : canPromoteQueued (done ++ rest) r = true
      · rw [if_pos hc]
        exact List.mem_cons_of_mem _ (ih _ x hx' hblock)
      · rw [if_neg hc]
        exact List.mem_cons_of_mem _ (ih _ x hx' hblock)

theorem promoteQueuedGo_admits (clock : Nat) :
    ∀ (todo done : List MigrationRecord) (r : MigrationRecord),
      r ∈ todo → r.status = .queued → r.postponeLaunch = false →
      (∀ h, (h ∈ done ∨ h ∈ todo) → h.uuid = r.uuid → h = r) →
      (∀ h, (h ∈ done ∨ h ∈ todo) → h.uuid ≠ r.uuid →
        (isHolder h = true ∨ h.status = .queued) →
        tablesOverlap r.targetTables h.targetTables = false) →
      promoteReadyRec clock r ∈ promoteQueuedGo clock done todo := by
  intro todo
  induction todo with
  | nil => intro done r hmem; cases hmem
  | cons x rest ih =>
    intro done r hmem hq hpl hu hd
    rw [promoteQueuedGo]
    by_cases hxr : x = r
    · subst hxr
      have hguard : canPromoteQueued (done ++ rest) x = true := by
        refine canPromoteQueued_true_of hq hpl (hasConflictWith_false_of ?_)
        intro y hy hhold
        have hy' : y ∈ done ∨ y ∈ x :: rest := by
          rcases List.mem_append.mp hy with h' | h'
          · exact Or.inl h'
          · exact Or.inr (List.mem_cons_of_mem _ h')
        by_cases hyu : y.uuid = x.uuid
        · have hyx : y = x := hu y hy' hyu
          subst hyx
          exfalso
          simp [isHolder, hq] at hhold
        · exact hd y hy' hyu (Or.inl hhold)
      rw [if_pos hguard]
      exact List.mem_cons_self _ _
    · have hmem' : r ∈ rest := by
        rcases List.mem_cons.mp hmem with h' | h'
        · exact absurd h'.symm hxr
        · exact h'
      have hxu : x.uuid ≠ r.uuid := fun he => hxr (hu x (Or.inr (List.mem_cons_self _ _)) he)
      by_cases hc : canPromoteQueued (done ++ rest) x = true
      · rw [if_pos hc]
        refine List.mem_cons_of_mem _ (ih (done ++ [promoteReadyRec clock x]) r hmem' hq hpl ?_ ?_)
        · intro h hh hhu
          rcases hh with hh | hh
          · rcases List.mem_append.mp hh with hh' | hh'
            · exact hu h (Or.inl hh') hhu
            · rcases List.mem_singleton.mp hh' with rfl
              exact absurd hhu hxu
          · exact hu h (Or.inr (List.mem_cons_of_mem _ hh)) hhu
        · intro h hh hhu hhold
          rcases hh with hh | hh
          · rcases List.mem_append.mp hh with hh' | hh'
            · exact hd h (Or.inl hh') hhu hhold
            · rcases List.mem_singleton.mp hh' with rfl
              exact hd x (Or.inr (List.mem_cons_self _ _)) hxu
                (Or.inr (canPromoteQueued_props hc).1)
          · exact hd h (Or.inr (List.mem_cons_of_mem _ hh)) hhu hhold
      · rw [if_neg hc]
        refine List.mem_cons_of_mem _ (ih (done ++ [x]) r hmem' hq hpl ?_ ?_)
        · intro h hh hhu
          rcases hh with hh | hh
          · rcases List.mem_append.mp hh with hh' | hh'
            · exact hu h (Or.inl hh') hhu
            · rcases List.mem_singleton.mp hh' with rfl
              exact hu h (Or.inr (List.mem_cons_self _ _)) hhu
          · exact hu h (Or.inr (List.mem_cons_of_mem _ hh)) hhu
        · intro h hh hhu hhold
          rcases hh with hh | hh
          · rcases List.mem_append.mp hh with hh' | hh'
            · exact hd h (Or.inl hh') hhu hhold
            · rcases List.mem_singleton.mp hh' with rfl
              exact hd h (Or.inr (List.mem_cons_self _ _)) hhu hhold
          · exact hd h (Or.inr (List.mem_cons_of_mem _ hh)) hhu hhold

theorem tickStep_admits (g : Bool) (thr : List Nat) (clock : Nat)
    (store : List MigrationRecord) (r : MigrationRecord)
    (hmem : r ∈ store) (hq : r.status = .queued) (hpl : r.postponeLaunch = false)
    (hac : r.allowConcurrent = true) (hrtc : r.readyToComplete = false)
    (hu : ∀ h ∈ store, h.uuid = r.uuid → h = r)
    (hd : ∀ h ∈ store, h.uuid ≠ r.uuid → (isHolder h = true ∨ h.status = .queued) →
      tablesOverlap r.targetTables h.targetTables = false) :
    promoteRunRec clock (promoteReadyRec clock r) ∈ tickStep g thr clock store := by
  have h1 : promoteReadyRec clock r ∈ promoteQueuedStep clock store := by
    refine promoteQueuedGo_admits clock store [] r hmem hq hpl ?_ ?_
    · intro h hh
      rcases hh with hh | hh
      · cases hh
      · exact hu h hh
    · intro h hh
      rcases hh with hh | hh
      · cases hh
      · exact hd h hh
  have he2 : concRunRec clock (promoteReadyRec clock r) =
      promoteRunRec clock (promoteReadyRec clock r) := by
    unfold concRunRec
    rw [if_pos (by simp [promoteReadyRec, hac])]
  have h2 : promoteRunRec clock (promoteReadyRec clock r) ∈
      promoteConcurrentStep clock (promoteQueuedStep clock store) := by
    have hm := List.mem_map_of_mem (concRunRec clock) h1
    rw [he2] at hm
    exact hm
  have h3 : promoteRunRec clock (promoteReadyRec clock r) ∈
      promoteExclusiveStep clock (promoteConcurrentStep clock (promoteQueuedStep clock store)) := by
    unfold promoteExclusiveStep
    split
    · exact h2
    · split
      · exact h2
      · exact mem_replaceFirst_of_neg _ _ _ _ h2 (by simp [exclusiveCandidate, promoteRunRec])
  have he4 : cutoverRec g thr clock (promoteRunRec clock (promoteReadyRec clock r)) =
      promoteRunRec clock (promoteReadyRec clock r) := by
    unfold cutoverRec
    rw [if_neg (by simp [promoteRunRec, promoteReadyRec, hrtc])]
  have h4 := List.mem_map_of_mem (cutoverRec g thr clock) h3
  rw [he4] at h4
  exact h4

theorem prePhases_running_mem (clock : Nat) (store : List MigrationRecord) (r : MigrationRecord)
    (hmem : r ∈ store) (hr : r.status = .running) :
    r ∈ promoteExclusiveStep clock (promoteConcurrentStep clock (promoteQueuedStep clock store)) := by
  have h1 : r ∈ promoteQueuedStep clock store :=
    mem_promoteQueuedGo_of_blocked clock store [] r hmem (Or.inl (by simp [hr]))
  have he : concRunRec clock r = r := by
    unfold concRunRec
    rw [if_neg (by simp [hr])]
  have h2 := List.mem_map_of_mem (concRunRec clock) h1
  rw [he] at h2
  unfold promoteExclusiveStep
  split
  · exact h2
  · split
    · exact h2
    · exact mem_replaceFirst_of_neg _ _ _ _ h2 (by simp [exclusiveCandidate, hr])

theorem tickStep_queued_gated (g : Bool) (thr : List Nat) (clock : Nat)
    (store : List MigrationRecord) (r : MigrationRecord)
    (hmem : r ∈ store) (hq : r.status = .queued) (hpl : r.postponeLaunch = true) :
    r ∈ tickStep g thr clock store := by
  have h1 : r ∈ promoteQueuedStep clock store :=
    mem_promoteQueuedGo_of_blocked clock store [] r hmem (Or.inr hpl)
  have he : concRunRec clock r = r := by
    unfold concRunRec
    rw [if_neg (by simp [hq])]
  have h2 := List.mem_map_of_mem (concRunRec clock) h1
  rw [he] at h2
  have h3 : r ∈ promoteExclusiveStep clock (promoteConcurrentStep clock (promoteQueuedStep clock store)) := by
    unfold promoteExclusiveStep
    split
    · exact h2
    · split
      · exact h2
      · exact mem_replaceFirst_of_neg _ _ _ _ h2 (by simp [exclusiveCandidate, hq])
  have he4 : cutoverRec g thr clock r = r := by
    unfold cutoverRec
    rw [if_neg (by simp [hq])]
  have h4 := List.mem_map_of_mem (cutoverRec g thr clock) h3
  rw [he4] at h4
  exact h4

theorem minRequestedAt_eq_none {l : List MigrationRecord} (h : minRequestedAt l = none) :
    l = [] := by
  cases l with
  | nil => rfl
  | cons x xs =>
    rw [minRequestedAt] at h
    cases hx : minRequestedAt xs <;> rw [hx] at h <;> cases h

theorem minRequestedAt_le {l : List MigrationRecord} :
    ∀ {m : Nat}, minRequestedAt l = some m → ∀ r ∈ l, m ≤ r.requestedAt := by
  induction l with
  | nil => intro m h; cases h
  | cons x xs ih =>
    intro m h r hr
    rw [minRequestedAt] at h
    cases hx : minRequestedAt xs with
    | none =>
      rw [hx] at h
      cases h
      rcases List.mem_cons.mp hr with rfl | hr'
      · exact Nat.le_refl _
      · rw [minRequestedAt_eq_none hx] at hr'
        cases hr'
    | some m' =>
      rw [hx] at h
      cases h
      rcases List.mem_cons.mp hr with rfl | hr'
      · exact Nat.min_le_left _ _
      · exact Nat.le_trans (Nat.min_le_right _ _) (ih hx r hr')

theorem promoteExclusiveStep_fifo (clock : Nat) (store : List MigrationRecord)
    (r' : MigrationRecord) (hmem : r' ∈ promoteExclusiveStep clock store) (hnew : r' ∉ store) :
    ∀ c ∈ store, exclusiveCandidate c = true → r'.requestedAt ≤ c.requestedAt := by
  intro c hc hcand
  unfold promoteExclusiveStep at hmem
  split at hmem
  · exact absurd hmem hnew
  · split at hmem
    · exact absurd hmem hnew
    · rename_i m hmin
      rcases mem_replaceFirst_cases _ _ _ _ hmem with h | ⟨x, hx, hpx, rfl⟩
      · exact absurd h hnew
      · simp only [Bool.and_eq_true, beq_iff_eq] at hpx
        have hle := minRequestedAt_le hmin c (List.mem_filter.mpr ⟨hc, hcand⟩)
        have hreq : (promoteRunRec clock x).requestedAt = m := hpx.2
        omega

theorem findRec_of_mem_nodup {store : List MigrationRecord} {r : MigrationRecord}
    (hnd : uuidsNodup store) (hm : r ∈ store) : findRec r.uuid store = some r := by
  induction store with
  | nil => cases hm
  | cons y ys ih =>
    rw [uuidsNodup, List.map_cons, List.nodup_cons] at hnd
    rcases List.mem_cons.mp hm with rfl | hm'
    · rw [findRec]
      rw [List.find?_cons_of_pos _ (by simp)]
    · by_cases hyu : y.uuid = r.uuid
      · exfalso
        exact hnd.1 (hyu ▸ List.mem_map_of_mem MigrationRecord.uuid hm')
      · rw [findRec, List.find?_cons_of_neg _ (by simp [hyu])]
        exact ih hnd.2 hm'

theorem tickStep_running_keep (g : Bool) (thr : List Nat) (clock : Nat)
    (store : List MigrationRecord) (r : MigrationRecord)
    (hmem : r ∈ store) (hr : r.status = .running)
    (hfrozen : cutoverRec g thr clock r = r) : r ∈ tickStep g thr clock store := by
  have h3 := prePhases_running_mem clock store r hmem hr
  have h4 := List.mem_map_of_mem (cutoverRec g thr clock) h3
  rw [hfrozen] at h4
  exact h4

theorem tickStep_running_cutover (g : Bool) (thr : List Nat) (clock : Nat)
    (store : List MigrationRecord) (r : MigrationRecord)
    (hmem : r ∈ store) (hr : r.status = .running)
    (hcut : cutoverRec g thr clock r =
      { r with status := .complete, completedAt := some clock }) :
    { r with status := .complete, completedAt := some clock } ∈ tickStep g thr clock store := by
  have h3 := prePhases_running_mem clock store r hmem hr
  have h4 := List.mem_map_of_mem (cutoverRec g thr clock) h3
  rw [hcut] at h4
  exact h4

/-- Claim C1: in every reachable scheduler state, no two records with
overlapping target tables are simultaneously in Ready or Running,
regardless of either record's `allow_concurrent` flag (a revert inherits
the target tables of the migration it reverts and participates in conflict
detection identically); concretely, on the revert-versus-drop trace the
later `allow_concurrent` submission on the shared table stays Queued while
the holder is Running, and completes only after the holder left Running. -/
theorem claimC1 :
    (∀ (shard : String) (events : List SchedEvent),
      conflictFree (runSched shard events).store) ∧
    (statusOf 1 (runSched "1" evC1a).store = some .running ∧
     statusOf 2 (runSched "1" evC1a).store = some .queued ∧
     statusOf 1 (runSched "1" evC1b).store = some .complete ∧
     statusOf 2 (runSched "1" evC1b).store = some .complete) :=
  ⟨fun shard events => (invariant_runSched shard events).1,
    by decide, by decide, by decide, by decide⟩

/-- Claim C2: a Queued migration that is not launch-gated and whose target
tables do not overlap those of any other pending record — in particular the
tables held by all current Ready/Running migrations — is admitted by the
tick regardless of its position in the queue; with `allow_concurrent` it is
promoted to Running in that same tick. Concretely, on the reference trace
the unrelated migration 3 submitted after the conflict-blocked migration 2
reaches Complete while 2 is still blocked and holder 1 is still Running. -/
theorem claimC2 :
    (∀ (g : Bool) (thr : List Nat) (clock : Nat) (store : List MigrationRecord)
      (r : MigrationRecord),
      r ∈ store → r.status = .queued → r.postponeLaunch = false →
      r.allowConcurrent = true → r.readyToComplete = false →
      (∀ h ∈ store, h.uuid = r.uuid → h = r) →
      (∀ h ∈ store, h.uuid ≠ r.uuid → (isHolder h = true ∨ h.status = .queued) →
        tablesOverlap r.targetTables h.targetTables = false) →
      promoteRunRec clock (promoteReadyRec clock r) ∈ tickStep g thr clock store) ∧
    (statusOf 1 (runSched "1" evC2).store = some .running ∧
     statusOf 2 (runSched "1" evC2).store = some .queued ∧
     statusOf 3 (runSched "1" evC2).store = some .complete) :=
  ⟨tickStep_admits, by decide, by decide, by decide⟩

theorem claimC2_witness :
    promoteRunRec 9 (promoteReadyRec 9 c2Waiter) ∈
      tickStep false [] 9 [c2Holder, c2Blocked, c2Waiter] :=
  claimC2.1 false [] 9 [c2Holder, c2Blocked, c2Waiter] c2Waiter (by decide) (by decide)
    (by decide) (by decide) (by decide) (by decide) (by decide)

/-- Claim C3: in every reachable scheduler state at most one Running record
has `allow_concurrent = false` (the exclusive slot); the record promoted
into a free slot has the smallest `requested_at` among all non-concurrent
Ready contenders (FIFO by submission); and on the concrete trace of two
non-concurrent migrations on different tables submitted in order, the
second one's `started_at` is at least the first one's `completed_at`. -/
theorem claimC3 :
    (∀ (shard : String) (events : List SchedEvent),
      exclusiveCount (runSched shard events).store ≤ 1) ∧
    (∀ (clock : Nat) (store : List MigrationRecord) (r' : MigrationRecord),
      r' ∈ promoteExclusiveStep clock store → r' ∉ store →
      ∀ c ∈ store, exclusiveCandidate c = true → r'.requestedAt ≤ c.requestedAt) ∧
    startedAfterCompleted (runSched "1" evC3).store 1 2 = true :=
  ⟨fun shard events => (invariant_runSched shard events).2,
    promoteExclusiveStep_fifo, by decide⟩

theorem claimC3_witness :
    (promoteRunRec 9 c3Cand).requestedAt ≤ c3Cand.requestedAt :=
  claimC3.2.1 9 [c3Cand] (promoteRunRec 9 c3Cand) (by decide) (by decide) c3Cand
    (by decide) (by decide)

/-- Claim C4: a resubmission carrying the UUID and matching
`migration_context` of an existing terminal Failed or Cancelled record
reopens that record in place: status reset to Queued, `retries`
incremented, `ready_to_complete` cleared, UUID preserved, and no second
record created (store length unchanged); concretely, the cancel-then-retry
trace ends Complete with `retries` equal to one. -/
theorem claimC4 (clock : Nat) (q : SubmitReq) (store : List MigrationRecord)
    (r : MigrationRecord) (hnd : uuidsNodup store) (hm : r ∈ store) (huid : r.uuid = q.uuid)
    (hterm : r.status = .failed ∨ r.status = .cancelled)
    (hctx : r.migrationContext = q.migrationContext) :
    reopenRec r ∈ submitStep clock q store ∧
    (submitStep clock q store).length = store.length ∧
    (reopenRec r).status = .queued ∧ (reopenRec r).retries = r.retries + 1 ∧
    (reopenRec r).readyToComplete = false ∧ (reopenRec r).uuid = r.uuid ∧
    statusOf 7 (runSched "1" evC4).store = some .complete ∧
    retriesOf 7 (runSched "1" evC4).store = some 1 := by
  have hf : findRec q.uuid store = some r := by
    rw [← huid]
    exact findRec_of_mem_nodup hnd hm
  have hguard : ((r.status == MigrationStatus.failed || r.status == MigrationStatus.cancelled) &&
      r.migrationContext == q.migrationContext) = true := by
    rcases hterm with h | h <;> simp [h, hctx]
  refine ⟨?_, ?_, rfl, rfl, rfl, rfl, by decide, by decide⟩
  · unfold submitStep
    simp only [hf]
    rw [if_pos hguard]
    have hmm := List.mem_map_of_mem (fun x => if x.uuid == q.uuid then reopenRec x else x) hm
    simpa [huid] using hmm
  · unfold submitStep
    simp only [hf]
    rw [if_pos hguard]
    exact List.length_map _ _

theorem claimC4_witness :
    reopenRec c4Rec ∈ submitStep 3 (mkReq 7 ["t1"] false false true) [c4Rec] ∧
    (submitStep 3 (mkReq 7 ["t1"] false false true) [c4Rec]).length = 1 := by
  have h := claimC4 3 (mkReq 7 ["t1"] false false true) [c4Rec] c4Rec
    (by unfold uuidsNodup; decide) (by decide) (by decide) (by decide) (by decide)
  exact ⟨h.1, h.2.1⟩

/-- Claim C5: for a Running record the tick's cutover gate never fires
while `postpone_completion` is set and no Complete command has been
received (even after `ready_to_complete` became true), nor while the
Throttle Oracle reports the record or everything throttled (even after
Complete was issued); once ready, allowed and unthrottled, the tick moves
it to Complete; concretely, on the throttled trace the record stays
Running across throttled ticks after Complete was issued and completes on
the first unthrottled tick. -/
theorem claimC5 (g : Bool) (thr : List Nat) (clock : Nat) (store : List MigrationRecord)
    (r : MigrationRecord) (hm : r ∈ store) (hr : r.status = .running) :
    (r.postponeCompletion = true → r.completeRequested = false →
      r ∈ tickStep g thr clock store) ∧
    (isThrottled g thr r = true → r ∈ tickStep g thr clock store) ∧
    (r.readyToComplete = true → (r.postponeCompletion = false ∨ r.completeRequested = true) →
      isThrottled g thr r = false →
      { r with status := .complete, completedAt := some clock } ∈ tickStep g thr clock store) ∧
    (statusOf 1 (runSched "1" evC5a).store = some .running ∧
     statusOf 1 (runSched "1" evC5b).store = some .complete) := by
  refine ⟨?_, ?_, ?_, by decide, by decide⟩
  · intro hpc hcr
    refine tickStep_running_keep g thr clock store r hm hr ?_
    unfold cutoverRec
    rw [if_neg (by simp [hpc, hcr])]
  · intro hthr
    refine tickStep_running_keep g thr clock store r hm hr ?_
    unfold cutoverRec
    rw [if_neg (by simp [hthr])]
  · intro hrtc hok hthr
    refine tickStep_running_cutover g thr clock store r hm hr ?_
    have hguard : (r.status == MigrationStatus.running && r.readyToComplete &&
        (!r.postponeCompletion || r.completeRequested) &&
        !isThrottled g thr r) = true := by
      rcases hok with h | h <;> simp [hr, hrtc, hthr, h]
    unfold cutoverRec
    rw [if_pos hguard]

theorem claimC5_witness :
    c5Run ∈ tickStep false [] 9 [c5Run] ∧
    c5Run ∈ tickStep true [] 9 [c5Run] ∧
    { c5Done with status := .complete, completedAt := some 9 } ∈ tickStep false [] 9 [c5Done] := by
  refine ⟨?_, ?_, ?_⟩
  · exact (claimC5 false [] 9 [c5Run] c5Run (by decide) (by decide)).1 (by decide) (by decide)
  · exact (claimC5 true [] 9 [c5Run] c5Run (by decide) (by decide)).2.1 (by decide)
  · exact (claimC5 false [] 9 [c5Done] c5Done (by decide) (by decide)).2.2.1 (by decide)
      (by decide) (by decide)

/-- Claim C6: two Queued `allow_concurrent` migrations on disjoint tables
(each disjoint from every other pending record) are both promoted to
Running by the same tick — neither waits for the other; concretely, on the
two continuation traces they complete in either order. -/
theorem claimC6 :
    (∀ (g : Bool) (thr : List Nat) (clock : Nat) (store : List MigrationRecord)
      (r1 r2 : MigrationRecord),
      r1 ∈ store → r2 ∈ store →
      r1.status = .queued → r2.status = .queued →
      r1.postponeLaunch = false → r2.postponeLaunch = false →
      r1.allowConcurrent = true → r2.allowConcurrent = true →
      r1.readyToComplete = false → r2.readyToComplete = false →
      (∀ h ∈ store, h.uuid = r1.uuid → h = r1) →
      (∀ h ∈ store, h.uuid = r2.uuid → h = r2) →
      (∀ h ∈ store, h.uuid ≠ r1.uuid → (isHolder h = true ∨ h.status = .queued) →
        tablesOverlap r1.targetTables h.targetTables = false) →
      (∀ h ∈ store, h.uuid ≠ r2.uuid → (isHolder h = true ∨ h.status = .queued) →
        tablesOverlap r2.targetTables h.targetTables = false) →
      promoteRunRec clock (promoteReadyRec clock r1) ∈ tickStep g thr clock store ∧
      promoteRunRec clock (promoteReadyRec clock r2) ∈ tickStep g thr clock store) ∧
    (statusOf 1 (runSched "1" evC6base).store = some .running ∧
     statusOf 2 (runSched "1" evC6base).store = some .running ∧
     statusOf 1 (runSched "1" evC6a).store = some .complete ∧
     statusOf 2 (runSched "1" evC6a).store = some .complete ∧
     completedBefore (runSched "1" evC6a).store 2 1 = true ∧
     statusOf 1 (runSched "1" evC6b).store = some .complete ∧
     statusOf 2 (runSched "1" evC6b).store = some .complete ∧
     completedBefore (runSched "1" evC6b).store 1 2 = true) := by
  constructor
  · intro g thr clock store r1 r2 hm1 hm2 hq1 hq2 hpl1 hpl2 hac1 hac2 hrtc1 hrtc2 hu1 hu2 hd1 hd2
    exact ⟨tickStep_admits g thr clock store r1 hm1 hq1 hpl1 hac1 hrtc1 hu1 hd1,
           tickStep_admits g thr clock store r2 hm2 hq2 hpl2 hac2 hrtc2 hu2 hd2⟩
  · exact ⟨by decide, by decide, by decide, by decide, by decide, by decide, by decide, by decide⟩

theorem claimC6_witness :
    promoteRunRec 9 (promoteReadyRec 9 c6r1) ∈ tickStep false [] 9 [c6r1, c6r2] ∧
    promoteRunRec 9 (promoteReadyRec 9 c6r2) ∈ tickStep false [] 9 [c6r1, c6r2] :=
  claimC6.1 false [] 9 [c6r1, c6r2] c6r1 c6r2 (by decide) (by decide) (by decide) (by decide)
    (by decide) (by decide) (by decide) (by decide) (by decide) (by decide)
    (by decide) (by decide) (by decide) (by decide)

/-- Claim C7: a migration submitted with `postpone_launch` stays Queued
across ticks until a Launch with matching shard scope arrives; a Launch
with a non-matching UUID or an out-of-scope shard list is a silent no-op
leaving the store unchanged; a matching Launch clears `postpone_launch`;
concretely, on the shard-"1" trace the record stays Queued with the flag
set through a wrong-UUID Launch and an x,y-scoped Launch, then completes
after a Launch scoped to x,1. -/
theorem claimC7 :
    (∀ (shard : String) (u : Nat) (scope : List String) (store : List MigrationRecord),
      (∀ x ∈ store, x.uuid ≠ u) → launchStep shard u scope store = store) ∧
    (∀ (shard : String) (u : Nat) (scope : List String) (store : List MigrationRecord),
      shardInScope shard scope = false → launchStep shard u scope store = store) ∧
    (∀ (shard : String) (u : Nat) (scope : List String) (store : List MigrationRecord)
      (r : MigrationRecord), r ∈ store → r.uuid = u → r.status = .queued →
      r.postponeLaunch = true → shardInScope shard scope = true →
      { r with postponeLaunch := false } ∈ launchStep shard u scope store) ∧
    (∀ (g : Bool) (thr : List Nat) (clock : Nat) (store : List MigrationRecord)
      (r : MigrationRecord), r ∈ store → r.status = .queued → r.postponeLaunch = true →
      r ∈ tickStep g thr clock store) ∧
    (statusOf 5 (runSched "1" evC7a).store = some .queued ∧
     postponeLaunchOf 5 (runSched "1" evC7a).store = some true ∧
     statusOf 5 (runSched "1" evC7b).store = some .complete ∧
     postponeLaunchOf 5 (runSched "1" evC7b).store = some false) := by
  refine ⟨?_, ?_, ?_, tickStep_queued_gated, by decide, by decide, by decide, by decide⟩
  · intro shard u scope store hx
    unfold launchStep
    split
    · refine map_id_of_mem store ?_
      intro x hxs
      unfold launchRec
      rw [if_neg (by simp [hx x hxs])]
    · rfl
  · intro shard u scope store h
    unfold launchStep
    rw [if_neg (by simp [h])]
  · intro shard u scope store r hm huid hq hpl hscope
    unfold launchStep
    rw [if_pos hscope]
    have he : launchRec u r = { r with postponeLaunch := false } := by
      unfold launchRec
      rw [if_pos (by simp [huid, hq, hpl])]
    have hmm := List.mem_map_of_mem (launchRec u) hm
    rw [he] at hmm
    exact hmm

theorem claimC7_witness :
    launchStep "1" 9 [] [c7Rec] = [c7Rec] ∧
    launchStep "1" 5 ["x", "y"] [c7Rec] = [c7Rec] ∧
    { c7Rec with postponeLaunch := false } ∈ launchStep "1" 5 ["x", "1"] [c7Rec] ∧
    c7Rec ∈ tickStep false [] 9 [c7Rec] := by
  refine ⟨?_, ?_, ?_, ?_⟩
  · exact claimC7.1 "1" 9 [] [c7Rec] (by decide)
  · exact claimC7.2.1 "1" 5 ["x", "y"] [c7Rec] (by decide)
  · exact claimC7.2.2.1 "1" 5 ["x", "1"] [c7Rec] c7Rec (by decide) (by decide) (by decide)
      (by decide) (by decide)
  · exact claimC7.2.2.2.1 false [] 9 [c7Rec] c7Rec (by decide) (by decide) (by decide)

/-- Claim C8: a Cancel command on a record in Queued or Ready (including a
Ready record blocked on the exclusive slot) moves it directly to the
terminal status Cancelled — not Failed — with no Executor involvement: the
transition is performed by the command handler itself; concretely, on the
trace where record 2 is Ready behind Running record 1, Cancel leaves 2
Cancelled while 1 keeps Running. -/
theorem claimC8 (clock : Nat) (u : Nat) (store : List MigrationRecord) (r : MigrationRecord)
    (hm : r ∈ store) (huid : r.uuid = u) (hst : r.status = .queued ∨ r.status = .ready) :
    { r with status := .cancelled, completedAt := some clock } ∈ cancelStep clock u store ∧
    (statusOf 2 (runSched "1" evC8).store = some .cancelled ∧
     statusOf 1 (runSched "1" evC8).store = some .running) := by
  constructor
  · have he : cancelRec clock u r = { r with status := .cancelled, completedAt := some clock } := by
      rcases hst with h | h <;> simp [cancelRec, huid, h]
    have hmm := List.mem_map_of_mem (cancelRec clock u) hm
    rw [he] at hmm
    exact hmm
  · exact ⟨by decide, by decide⟩

theorem claimC8_witness :
    { c8Rec with status := .cancelled, completedAt := some 4 } ∈ cancelStep 4 2 [c8Rec] :=
  (claimC8 4 2 [c8Rec] c8Rec (by decide) (by decide) (by decide)).1

/-- Claim C9: `WaitTerminate` on a handle whose `proc` or `exit` channel is
nil returns nil immediately, sends no signal and leaves the handle
untouched; only with a live process does it send SIGTERM first, clear the
handle's `proc`, return the exit channel's error, and escalate to Kill
exactly when the process does not exit within the 10 second window. -/
theorem claimC9 (vtp : VtProcess) (o : TermOutcome) :
    (vtp.proc = none ∨ vtp.exit = none → waitTerminate vtp o = (none, vtp, [])) ∧
    (vtp.proc ≠ none → vtp.exit ≠ none →
      (waitTerminate vtp o).1 = o.exitErr ∧
      (waitTerminate vtp o).2.1 = { vtp with proc := none } ∧
      (waitTerminate vtp o).2.2 =
        (if o.exitsWithin10s then [VtSignal.sigterm]
         else [VtSignal.sigterm, VtSignal.sigkill])) := by
  constructor
  · intro h
    unfold waitTerminate
    rw [if_pos h]
  · intro hp he
    have hcond : ¬(vtp.proc = none ∨ vtp.exit = none) := by
      rintro (h | h)
      · exact hp h
      · exact he h
    unfold waitTerminate
    rw [if_neg hcond]
    cases htw : o.exitsWithin10s <;> simp [htw]

theorem claimC9_witness :
    waitTerminate vtpNil { exitsWithin10s := true, exitErr := none } = (none, vtpNil, []) ∧
    (waitTerminate vtpLive { exitsWithin10s := false, exitErr := some "exit status 1" }).2.2 =
      [VtSignal.sigterm, VtSignal.sigkill] := by
  constructor
  · exact (claimC9 vtpNil _).1 (Or.inl rfl)
  · exact ((claimC9 vtpLive _).2 (by decide) (by decide)).2.2

/-- Claim C10: `VtcomboProcess` applies defaults for unset configuration:
with an empty `Charset` the argument list starts with `--db_charset`
followed by `DefaultCharset` which is the string utf8mb4, and with
`VtgateTabletRefreshInterval` at most zero the arguments contain the
constant `--tablet_refresh_interval=10s` rather than the caller-supplied
interval. -/
theorem claimC10 (d : VtcomboDeps) (args : VttestConfig) :
    (args.charset = "" →
      (vtcomboExtraArgs d args)[0]? = some "--db_charset" ∧
      (vtcomboExtraArgs d args)[1]? = some DefaultCharset ∧ DefaultCharset = "utf8mb4") ∧
    (args.vtgateTabletRefreshInterval ≤ 0 →
      "--tablet_refresh_interval=10s" ∈ vtcomboExtraArgs d args) := by
  constructor
  · intro h
    refine ⟨?_, ?_, rfl⟩
    · simp [vtcomboExtraArgs, h]
    · simp [vtcomboExtraArgs, h]
  · intro hle
    have h10 : "--tablet_refresh_interval=" ++ goDuration 10000000000 =
        "--tablet_refresh_interval=10s" := by decide
    simp [vtcomboExtraArgs, hle, h10]

theorem claimC10_witness :
    (vtcomboExtraArgs depsEx cfgEx)[0]? = some "--db_charset" ∧
    (vtcomboExtraArgs depsEx cfgEx)[1]? = some DefaultCharset ∧
    "--tablet_refresh_interval=10s" ∈ vtcomboExtraArgs depsEx cfgEx := by
  have h := claimC10 depsEx cfgEx
  exact ⟨(h.1 rfl).1, (h.1 rfl).2.1, h.2 (by decide)⟩
